import Mathlib

/-
Verification of the bluecarbon RAG pipeline core against its specification.

Shallow embedding of:
  - helper/llm.py        : LLMClient._parse_json_response, _extract_json_block
  - helper/memory.py     : SimpleMemoryManager.add_to_memory, _update_summary
  - helper/core.py       : RagOrchestrator.process_query (post-LLM-parse logic)
  - helper/prep_citation.py : resolve_file_ids_for_chunks, fetch_all_chunks,
        fetch_chunks_by_header, detect_heading, build_section_markdown,
        create_section_html_from_listchunk

Machine-level conventions: Python strings are Lean Strings (lists of Chars),
Python dicts from json.loads are insertion-ordered association lists,
exceptions are Option/Except, and Python truthiness of a string is
non-emptiness.
-/

namespace Rag

/-- JSON values as produced by Python json.loads. Numbers keep their source
lexeme (their numeric value is never consumed by the code under study);
objects are insertion-ordered association lists, as Python dicts are. -/
inductive Json where
  | null : Json
  | bool : Bool → Json
  | num : String → Json
  | str : String → Json
  | arr : List Json → Json
  | obj : List (String × Json) → Json
  deriving Repr

/-- Python hashable primitives: the values a Python set may hold in this
code path (lists and dicts are unhashable and raise TypeError). -/
inductive PyHashable where
  | hnull : PyHashable
  | hbool : Bool → PyHashable
  | hnum : String → PyHashable
  | hstr : String → PyHashable
  deriving Repr, DecidableEq

/-- Python str.isspace set used by str.strip (ASCII fragment). -/
def pySpace (c : Char) : Bool :=
  c == ' ' || c == '\t' || c == '\n' || c == '\r' || c == '\x0b' || c == '\x0c'

/-- Python s.strip(): drop leading and trailing whitespace. -/
def pyStrip (s : String) : String :=
  String.mk (((s.toList.dropWhile pySpace).reverse.dropWhile pySpace).reverse)

/-- Python s[:n] for a string and n ≥ 0. -/
def pyTake (n : Nat) (s : String) : String :=
  String.mk (s.toList.take n)

/-- Python lst[-n:] for n ≥ 0: the whole list when n = 0, else the last n
elements. -/
def pyTakeLast (n : Nat) (l : List α) : List α :=
  if n = 0 then l else l.drop (l.length - n)

/-! ### helper/llm.py : JSON block extraction

`_parse_json_response` locates a JSON candidate with the regex
`\x7b[^\x7b\x7d]*(?:\x7b[^\x7b\x7d]*\x7d[^\x7b\x7d]*)*\x7d` via re.search.
The pattern admits at most one level of brace nesting.  Its leftmost-greedy
match is computed below: at a given start the initial `[^..]*` run and each
iteration run are forced maximal (they stop at a brace), the star iterates
exactly while the next char is an opening brace, and backtracking can never
rescue a failed iteration because every position it can restore holds a
non-brace or an opening brace. -/

def isNonBrace (c : Char) : Bool :=
  c != '{' && c != '}'

/-- Star phase of the regex match. `cs` is positioned at a brace or at the
end; `acc` counts the characters already matched. Returns the total match
length when the closing brace of the pattern is found. -/
def starLoop : Nat → Nat → List Char → Option Nat
  | 0, _, _ => none
  | _ + 1, acc, '}' :: _ => some (acc + 1)
  | fuel + 1, acc, '{' :: rest =>
    let run := rest.takeWhile isNonBrace
    match rest.dropWhile isNonBrace with
    | '}' :: rest2 =>
      let run2 := rest2.takeWhile isNonBrace
      starLoop fuel (acc + 1 + run.length + 1 + run2.length) (rest2.dropWhile isNonBrace)
    | _ => none
  | _ + 1, _, _ => none

/-- Length of the regex match anchored at the head of `cs`, if any. -/
def regexMatchAt (cs : List Char) : Option Nat :=
  match cs with
  | '{' :: rest =>
    let run := rest.takeWhile isNonBrace
    starLoop (cs.length + 1) (1 + run.length) (rest.dropWhile isNonBrace)
  | _ => none

/-- re.search for the depth-one brace pattern: leftmost match, as a char
list. -/
def reSearchJson : List Char → Option (List Char)
  | [] => none
  | c :: rest =>
    match regexMatchAt (c :: rest) with
    | some n => some ((c :: rest).take n)
    | none => reSearchJson rest

/-! ### helper/llm.py : LLMClient._extract_json_block

The brace-depth-counting extractor present in the source.  It is defined
but never called by `_parse_json_response`. -/

/-- Scan from the first opening brace keeping a brace depth; return the
consumed prefix once the depth returns to zero. -/
def braceScan (depth : Nat) (acc : List Char) : List Char → Option (List Char)
  | [] => none
  | c :: rest =>
    let depth2 := if c == '{' then depth + 1 else if c == '}' then depth - 1 else depth
    if depth2 = 0 then some ((c :: acc).reverse) else braceScan depth2 (c :: acc) rest

/-- LLMClient._extract_json_block: text.find of the first opening brace,
then balanced-brace counting. -/
def extractJsonBlock (text : String) : Option String :=
  match text.toList.dropWhile (fun c => c != '{') with
  | [] => none
  | c :: rest => (braceScan 0 [] (c :: rest)).map String.mk

/-! ### Model of Python json.loads

A recursive-descent parser for the JSON grammar accepted by json.loads
(strict mode): values null/true/false, numbers without leading zeros,
double-quoted strings with the standard escapes, arrays and objects.
Duplicate object keys keep the first position and the last value, as a
Python dict built by repeated assignment does. Numbers keep their lexeme.
Recursion is by explicit fuel; the top entry supplies input length + 1,
ample because every recursive call consumes at least one character. -/

/-- JSON whitespace accepted between tokens by json.loads. -/
def jsonWs (c : Char) : Bool :=
  c == ' ' || c == '\t' || c == '\n' || c == '\r'

def skipWs (cs : List Char) : List Char :=
  cs.dropWhile jsonWs

def hexDigitVal (c : Char) : Option Nat :=
  if c.isDigit then some (c.toNat - 48)
  else if 'a' ≤ c ∧ c ≤ 'f' then some (c.toNat - 87)
  else if 'A' ≤ c ∧ c ≤ 'F' then some (c.toNat - 55)
  else none

/-- Body of a JSON string after the opening quote: returns the decoded
characters and the remainder after the closing quote. Raw control
characters are rejected (strict mode), escapes are decoded. -/
def parseStringBody : Nat → List Char → Option (List Char × List Char)
  | 0, _ => none
  | _ + 1, [] => none
  | fuel + 1, c :: rest =>
    if c == '"' then some ([], rest)
    else if c == '\\' then
      match rest with
      | [] => none
      | e :: rest2 =>
        let dec : Option (Char × List Char) :=
          if e == '"' then some ('"', rest2)
          else if e == '\\' then some ('\\', rest2)
          else if e == '/' then some ('/', rest2)
          else if e == 'b' then some ('\x08', rest2)
          else if e == 'f' then some ('\x0c', rest2)
          else if e == 'n' then some ('\n', rest2)
          else if e == 'r' then some ('\r', rest2)
          else if e == 't' then some ('\t', rest2)
          else if e == 'u' then
            match rest2 with
            | h1 :: h2 :: h3 :: h4 :: rest3 =>
              match hexDigitVal h1, hexDigitVal h2, hexDigitVal h3, hexDigitVal h4 with
              | some a, some b, some c2, some d =>
                some (Char.ofNat (((a * 16 + b) * 16 + c2) * 16 + d), rest3)
              | _, _, _, _ => none
            | _ => none
          else none
        match dec with
        | some (ch, rest3) =>
          match parseStringBody fuel rest3 with
          | some (cs2, rem) => some (ch :: cs2, rem)
          | none => none
        | none => none
    else if c.toNat < 32 then none
    else
      match parseStringBody fuel rest with
      | some (cs2, rem) => some (c :: cs2, rem)
      | none => none

def digitsSplit (cs : List Char) : List Char × List Char :=
  (cs.takeWhile Char.isDigit, cs.dropWhile Char.isDigit)

/-- Number lexeme per the json.loads NUMBER_RE:
minus? (0 | nonzero digits) frac? exp?. A malformed tail (lone dot or
exponent) is left unconsumed, making the surrounding parse fail exactly as
the Python scanner does. -/
def parseNumberLexeme (cs : List Char) : Option (List Char × List Char) :=
  let sign : List Char × List Char :=
    match cs with
    | '-' :: rest => (['-'], rest)
    | _ => ([], cs)
  match sign.2 with
  | [] => none
  | c :: _ =>
    if ¬ c.isDigit then none
    else
      let ip := digitsSplit sign.2
      if 1 < ip.1.length ∧ ip.1.head? = some '0' then none
      else
        let fp : List Char × List Char :=
          match ip.2 with
          | '.' :: rest =>
            let ds := digitsSplit rest
            if ds.1.isEmpty then ([], ip.2) else ('.' :: ds.1, ds.2)
          | _ => ([], ip.2)
        let ep : List Char × List Char :=
          match fp.2 with
          | e :: rest =>
            if e == 'e' || e == 'E' then
              let sgn : List Char × List Char :=
                match rest with
                | '+' :: r => (['+'], r)
                | '-' :: r => (['-'], r)
                | _ => ([], rest)
              let ds := digitsSplit sgn.2
              if ds.1.isEmpty then ([], fp.2) else (e :: (sgn.1 ++ ds.1), ds.2)
            else ([], fp.2)
          | [] => ([], fp.2)
        some (sign.1 ++ ip.1 ++ fp.1 ++ ep.1, ep.2)

/-- Python dict assignment d[k] = v: first occurrence keeps its position,
the value is overwritten. -/
def objInsertPy (kvs : List (String × Json)) (k : String) (v : Json) : List (String × Json) :=
  match kvs with
  | [] => [(k, v)]
  | (k0, v0) :: rest => if k0 == k then (k0, v) :: rest else (k0, v0) :: objInsertPy rest k v

mutual

def parseValue : Nat → List Char → Option (Json × List Char)
  | 0, _ => none
  | fuel + 1, cs =>
    match skipWs cs with
    | [] => none
    | '"' :: rest =>
      match parseStringBody fuel rest with
      | some (scs, rem) => some (Json.str (String.mk scs), rem)
      | none => none
    | '{' :: rest =>
      match skipWs rest with
      | '}' :: rest2 => some (Json.obj [], rest2)
      | _ => parseObjItems fuel [] rest
    | '[' :: rest =>
      match skipWs rest with
      | ']' :: rest2 => some (Json.arr [], rest2)
      | _ => parseArrItems fuel [] rest
    | 't' :: 'r' :: 'u' :: 'e' :: rest => some (Json.bool true, rest)
    | 'f' :: 'a' :: 'l' :: 's' :: 'e' :: rest => some (Json.bool false, rest)
    | 'n' :: 'u' :: 'l' :: 'l' :: rest => some (Json.null, rest)
    | other =>
      match parseNumberLexeme other with
      | some (lex, rem) => some (Json.num (String.mk lex), rem)
      | none => none

def parseObjItems : Nat → List (String × Json) → List Char → Option (Json × List Char)
  | 0, _, _ => none
  | fuel + 1, acc, cs =>
    match skipWs cs with
    | '"' :: rest =>
      match parseStringBody fuel rest with
      | some (kcs, rest2) =>
        match skipWs rest2 with
        | ':' :: rest3 =>
          match parseValue fuel rest3 with
          | some (v, rest4) =>
            let acc2 := objInsertPy acc (String.mk kcs) v
            match skipWs rest4 with
            | ',' :: rest5 => parseObjItems fuel acc2 rest5
            | '}' :: rest5 => some (Json.obj acc2, rest5)
            | _ => none
          | none => none
        | _ => none
      | none => none
    | _ => none

def parseArrItems : Nat → List Json → List Char → Option (Json × List Char)
  | 0, _, _ => none
  | fuel + 1, acc, cs =>
    match parseValue fuel cs with
    | some (v, rest) =>
      match skipWs rest with
      | ',' :: rest2 => parseArrItems fuel (acc ++ [v]) rest2
      | ']' :: rest2 => some (Json.arr (acc ++ [v]), rest2)
      | _ => none
    | none => none

end

/-- json.loads: one JSON value, possibly surrounded by whitespace, nothing
else. -/
def jsonLoads (s : String) : Option Json :=
  match parseValue (s.toList.length + 1) s.toList with
  | some (j, rem) => if (skipWs rem).isEmpty then some j else none
  | none => none

/-! ### helper/llm.py : LLMClient._parse_json_response -/

/-- Python dict.get without default: the value under the key, if present. -/
def objGet? (kvs : List (String × Json)) (k : String) : Option Json :=
  (kvs.find? (fun kv => kv.1 == k)).map (fun kv => kv.2)

/-- Python dict.get with a default value. -/
def objGetD (kvs : List (String × Json)) (k : String) (d : Json) : Json :=
  (objGet? kvs k).getD d

/-- Python dict.setdefault: insert (at the end) only when the key is
absent. -/
def objSetdefault (kvs : List (String × Json)) (k : String) (v : Json) : List (String × Json) :=
  match objGet? kvs k with
  | some _ => kvs
  | none => kvs ++ [(k, v)]

def toHashable : Json → Option PyHashable
  | Json.null => some PyHashable.hnull
  | Json.bool b => some (PyHashable.hbool b)
  | Json.num n => some (PyHashable.hnum n)
  | Json.str s => some (PyHashable.hstr s)
  | Json.arr _ => none
  | Json.obj _ => none

/-- Python set(x) for the values reachable here: a list yields its
elements (TypeError when one is unhashable), a string yields its
characters as one-char strings, a dict yields its keys; anything else is
not iterable (TypeError). Sets are represented as element lists compared
by mutual containment. -/
def pySetOf : Json → Option (List PyHashable)
  | Json.arr xs => xs.mapM toHashable
  | Json.str s => some (s.toList.map (fun c => PyHashable.hstr (String.mk [c])))
  | Json.obj kvs => some (kvs.map (fun kv => PyHashable.hstr kv.1))
  | _ => none

/-- Python dict.keys() as a set of strings; AttributeError off a
non-dict. -/
def pyKeySet : Json → Option (List PyHashable)
  | Json.obj kvs => some (kvs.map (fun kv => PyHashable.hstr kv.1))
  | _ => none

/-- Python set equality: same elements. -/
def pySetEq (a b : List PyHashable) : Bool :=
  a.all (fun x => b.contains x) && b.all (fun x => a.contains x)

/-- The setdefault chain of _parse_json_response applied to the parsed
dict. -/
def withDefaults (kvs : List (String × Json)) : List (String × Json) :=
  objSetdefault
    (objSetdefault
      (objSetdefault
        (objSetdefault kvs "used_chunk_ids" (Json.arr []))
        "chunk_reasoning" (Json.obj []))
      "citation_required" (Json.str "no"))
    "answer" (Json.str "")

/-- Set of used_chunk_ids after the setdefault chain (none = TypeError). -/
def usedChunkSet (j : Json) : Option (List PyHashable) :=
  match j with
  | Json.obj kvs => pySetOf (objGetD (withDefaults kvs) "used_chunk_ids" Json.null)
  | _ => none

/-- Key set of chunk_reasoning after the setdefault chain (none =
AttributeError or TypeError). -/
def reasoningKeySet (j : Json) : Option (List PyHashable) :=
  match j with
  | Json.obj kvs => pyKeySet (objGetD (withDefaults kvs) "chunk_reasoning" Json.null)
  | _ => none

/-- The try-block of _parse_json_response after json.loads succeeded:
setdefault the four contract keys, then require set(used_chunk_ids) to
equal set(chunk_reasoning.keys()). Any Python exception on the way
(AttributeError off a non-dict, TypeError from set(), the explicit
ValueError on misalignment) is `none` and is caught by the caller. -/
def postValidate (j : Json) : Option Json :=
  match j with
  | Json.obj kvs =>
    let kvs4 := withDefaults kvs
    match pySetOf (objGetD kvs4 "used_chunk_ids" Json.null),
          pyKeySet (objGetD kvs4 "chunk_reasoning" Json.null) with
    | some su, some kr => if pySetEq su kr then some (Json.obj kvs4) else none
    | _, _ => none
  | _ => none

/-- The fallback dict returned by _parse_json_response on any failure. -/
def fallbackResponse : Json :=
  Json.obj [("answer", Json.str "Error parsing response."),
            ("citation_required", Json.str "no"),
            ("used_chunk_ids", Json.arr []),
            ("chunk_reasoning", Json.obj [])]

/-- Modelled from the spec: the safe default the specification says the
parser returns on failure (Variant B). Stated from the spec words for
comparison with the code fallback. -/
def specSafeDefaultB : Json :=
  Json.obj [("answer", Json.str ""),
            ("citation_required", Json.str "no"),
            ("used_chunk_ids", Json.arr []),
            ("chunk_reasoning", Json.obj [])]

/-- LLMClient._parse_json_response: strip, regex-search a JSON candidate,
json.loads it, setdefault + alignment check; fallback on any failure. -/
def parseJsonResponse (content : String) : Json :=
  match reSearchJson (pyStrip content).toList with
  | some m =>
    match jsonLoads (String.mk m) with
    | some j =>
      match postValidate j with
      | some out => out
      | none => fallbackResponse
    | none => fallbackResponse
  | none => fallbackResponse

/-! ### helper/memory.py : SimpleMemoryManager

One session's slot of the manager: its entry list and its summary string.
A fresh session starts at ⟨[], ""⟩ (the bootstrap branch of
add_to_memory). Entry ids and timestamps are environment-supplied; the
entry value is passed in whole. -/

structure MemoryEntry where
  id : String
  user_message : String
  ai_response : String
  timestamp : String
  metadata : Json

structure SessionMemory where
  entries : List MemoryEntry
  summary : String

/-- Session summary text built by _update_summary from the last five
entries. -/
def recomputedSummary (entries : List MemoryEntry) : String :=
  "Recent topics:\n" ++ String.intercalate "\n"
    ((pyTakeLast 5 entries).map
      (fun m => "- User asked about: " ++ pyTake 100 m.user_message ++ "..."))

/-- SimpleMemoryManager._update_summary for an existing session: no-op
below three entries, otherwise rebuild the summary from the last five
entries. -/
def updateSummary (entries : List MemoryEntry) (old : String) : String :=
  if entries.length < 3 then old
  else
    let recentTopics := (pyTakeLast 5 entries).map
      (fun m => "- User asked about: " ++ pyTake 100 m.user_message ++ "...")
    if recentTopics.isEmpty then old
    else "Recent topics:\n" ++ String.intercalate "\n" recentTopics

/-- SimpleMemoryManager.add_to_memory on one session: append the entry,
keep only the last max_memories entries when the cap is exceeded, and
rebuild the summary when the resulting count is divisible by five. -/
def addToMemory (maxMemories : Nat) (st : SessionMemory) (e : MemoryEntry) : SessionMemory :=
  let entries1 := st.entries ++ [e]
  let entries2 := if maxMemories < entries1.length then pyTakeLast maxMemories entries1 else entries1
  let summary2 := if entries2.length % 5 = 0 then updateSummary entries2 st.summary else st.summary
  ⟨entries2, summary2⟩

/-! ### helper/prep_citation.py -/

/-- A stored chunk record with the output fields used by the citation
path. Absent Milvus fields are empty strings (the falsy case). -/
structure Chunk where
  chunk_id : String
  file_id : String
  text : String
  page : String
  header : String
  relative_img_path : String
  deriving Repr, DecidableEq

/-- re.sub(r"\x7b\d+\x7d-+", "", text): drop every page-number artifact,
scanning left to right. -/
def scrubPageMarks : Nat → List Char → List Char
  | 0, cs => cs
  | fuel + 1, cs =>
    match cs with
    | [] => []
    | '{' :: rest =>
      let ds := rest.takeWhile Char.isDigit
      if ds.isEmpty then '{' :: scrubPageMarks fuel rest
      else
        match rest.drop ds.length with
        | '}' :: rest2 =>
          let hs := rest2.takeWhile (fun c => c == '-')
          if hs.isEmpty then '{' :: scrubPageMarks fuel rest
          else scrubPageMarks fuel (rest2.drop hs.length)
        | _ => '{' :: scrubPageMarks fuel rest
    | c :: rest => c :: scrubPageMarks fuel rest

/-- Lazy scan of `.*?\]\(`: consume up to the first "](" on the current
line. -/
def scanToBracketParen : List Char → Option (List Char)
  | [] => none
  | ']' :: '(' :: rest => some rest
  | '\n' :: _ => none
  | _ :: rest => scanToBracketParen rest

/-- Lazy scan of `.*?\)`: consume up to the first ")" on the current
line. -/
def scanToParen : List Char → Option (List Char)
  | [] => none
  | ')' :: rest => some rest
  | '\n' :: _ => none
  | _ :: rest => scanToParen rest

/-- re.sub(r"!\[.*?\]\(.*?\)", repl, text): replace every markdown image
reference, scanning left to right. -/
def imageSub (repl : List Char) : Nat → List Char → List Char
  | 0, cs => cs
  | fuel + 1, cs =>
    match cs with
    | [] => []
    | '!' :: '[' :: rest =>
      match scanToBracketParen rest with
      | some rest2 =>
        match scanToParen rest2 with
        | some rest3 => repl ++ imageSub repl fuel rest3
        | none => '!' :: imageSub repl fuel ('[' :: rest)
      | none => '!' :: imageSub repl fuel ('[' :: rest)
    | c :: rest => c :: imageSub repl fuel rest

/-- The processed text of one chunk inside build_section_markdown:
artifact scrub, strip, then image-reference rewrite when the chunk has a
resolved image path. -/
def chunkText (c : Chunk) : String :=
  let t0 := c.text.toList
  let t1 := pyStrip (String.mk (scrubPageMarks t0.length t0))
  if c.relative_img_path ≠ "" then
    let imgPath := c.relative_img_path.replace "\\" "/"
    let repl := ("![](file:///" ++ imgPath ++ ")").toList
    String.mk (imageSub repl t1.toList.length t1.toList)
  else t1

def pageBreakLine : String := "\n<div class=\x27page-break\x27></div>\n"

def sourcePageLine (page : String) : String :=
  "<div class=\x27source-page\x27>Source page: " ++ page ++ "</div>\n"

/-- The one or two markdown elements a chunk contributes after the
optional page break: its source-page tag and its (possibly highlighted)
text. -/
def chunkBody (tgt : List String) (c : Chunk) : List String :=
  [sourcePageLine c.page,
   if tgt.contains c.chunk_id then "::: highlight\n" ++ chunkText c ++ "\n:::\n"
   else chunkText c ++ "\n"]

/-- The chunk loop of build_section_markdown. `lastPage` is the page label
of the previously emitted chunk (none before the first). A page break is
emitted when the previous label is truthy (non-empty) and differs from the
current one — the Python test `if last_page and page_meta != last_page`. -/
def emitChunks (tgt : List String) : Option String → List Chunk → List String
  | _, [] => []
  | lastPage, c :: rest =>
    let withBreak :=
      match lastPage with
      | some lp => lp != "" && c.page != lp
      | none => false
    (if withBreak then [pageBreakLine] else []) ++ chunkBody tgt c
      ++ emitChunks tgt (some c.page) rest

/-- Lexicographic order on char lists by code point: Python string
comparison. -/
def charListLe : List Char → List Char → Bool
  | [], _ => true
  | _ :: _, [] => false
  | a :: as, b :: bs =>
    if a < b then true
    else if b < a then false
    else charListLe as bs

/-- Python s1 <= s2 on strings. -/
def pyStrLe (a b : String) : Bool :=
  charListLe a.toList b.toList

/-- Ascending stable sort by chunk_id, as Python sorted with that key. -/
def sortChunks (chunks : List Chunk) : List Chunk :=
  List.insertionSort (fun a b => pyStrLe a.chunk_id b.chunk_id = true) chunks

/-- build_section_markdown as the md element list before "\n".join:
heading line first, then the sorted chunks with page-break detection. The
target set is modelled as a list of chunk ids with membership. -/
def buildSectionMarkdownLines (chunks : List Chunk) (tgt : List String) (heading : String) : List String :=
  ("# " ++ heading ++ "\n") :: emitChunks tgt none (sortChunks chunks)

/-- build_section_markdown: the joined markdown document. -/
def buildSectionMarkdown (chunks : List Chunk) (tgt : List String) (heading : String) : String :=
  String.intercalate "\n" (buildSectionMarkdownLines chunks tgt heading)

/-- Maximal run of ('.' digits+) groups of the numbered-heading regex. -/
def eatDotGroups : Nat → List Char → List Char
  | 0, cs => cs
  | fuel + 1, cs =>
    match cs with
    | '.' :: rest =>
      let ds := rest.takeWhile Char.isDigit
      if ds.isEmpty then cs else eatDotGroups fuel (rest.drop ds.length)
    | _ => cs

/-- One attempt of re.search(r"^(\d+(?:\.\d+)*)\s+(.*)$", …, MULTILINE) at
a line start: digits, dot groups, at least one whitespace (which may span
newlines), then the rest of the current line as group 2. -/
def matchNumberedAt (cs : List Char) : Option String :=
  let ds := cs.takeWhile Char.isDigit
  if ds.isEmpty then none
  else
    let rest := eatDotGroups cs.length (cs.drop ds.length)
    let ws := rest.takeWhile pySpace
    if ws.isEmpty then none
    else some (String.mk ((rest.drop ws.length).takeWhile (fun c => c != '\n')))

/-- Candidate positions of the MULTILINE anchor: the start of each line,
leftmost first. -/
def searchNumbered : Nat → List Char → Option String
  | 0, _ => none
  | fuel + 1, cs =>
    match matchNumberedAt cs with
    | some t => some t
    | none =>
      match cs.dropWhile (fun c => c != '\n') with
      | [] => none
      | _ :: rest => searchNumbered fuel rest

/-- detect_heading: the chunk's own header when truthy (stripped), else
the first numbered-heading line of its text (group 2, stripped), else the
placeholder. -/
def detectHeading (c : Chunk) : String :=
  if c.header ≠ "" then pyStrip c.header
  else
    match searchNumbered (c.text.toList.length + 1) c.text.toList with
    | some t => pyStrip t
    | none => "Referenced Section"

/-- fetch_all_chunks: the stored records of one file (query limit
10000). The store is modelled as a record list in index order. -/
def fetchAllChunks (index : List Chunk) (fileId : String) : List Chunk :=
  (index.filter (fun c => c.file_id == fileId)).take 10000

/-- fetch_chunks_by_header: records of one file with one exact header
(the except-branch fallback filters the same predicate in Python). -/
def fetchChunksByHeader (index : List Chunk) (fileId header : String) : List Chunk :=
  (index.filter (fun c => c.file_id == fileId && c.header == header)).take 10000

/-- The dict.setdefault(file_id, []).append(chunk_id) grouping step of
resolve_file_ids_for_chunks. -/
def insertGrouped (g : List (String × List String)) (f c : String) : List (String × List String) :=
  match g with
  | [] => [(f, [c])]
  | (k, cs) :: rest =>
    if k == f then (k, cs ++ [c]) :: rest else (k, cs) :: insertGrouped rest f c

/-- resolve_file_ids_for_chunks: query the records whose chunk_id is in
the target list (limit 1000) and group the chunk ids by file, keeping
first-appearance file order. -/
def resolveFileIdsForChunks (index : List Chunk) (chunkIds : List String) : List (String × List String) :=
  let results := (index.filter (fun r => chunkIds.contains r.chunk_id)).take 1000
  results.foldl (fun g r => insertGrouped g r.file_id r.chunk_id) []

/-- The per-file loop of create_section_html_from_listchunk. Each group
yields the artifact path "citations/<first 5 of file_id>_<n>chunks_citation.html".
The heading detection, section fetch and markdown build are carried out
(they shape the written HTML body); the pandoc conversion, HTML template
and file write change no returned value and are not modelled. A failing
next() — the group's first chunk id absent from the fetched file chunks —
raises StopIteration out of the whole call. -/
def sectionOutputs (index : List Chunk) : List (String × List String) → Except Unit (List String)
  | [] => Except.ok []
  | (fileId, chunkIds) :: rest =>
    let allChunks := fetchAllChunks index fileId
    match chunkIds.head? with
    | none => Except.error ()
    | some c0 =>
      match allChunks.find? (fun c => c.chunk_id == c0) with
      | none => Except.error ()
      | some target =>
        let heading := detectHeading target
        let sectionChunks := fetchChunksByHeader index fileId heading
        let _md := buildSectionMarkdown sectionChunks chunkIds heading
        let stub := String.mk (fileId.toList.take 5) ++ "_" ++ toString chunkIds.length ++ "chunks"
        match sectionOutputs index rest with
        | Except.ok paths => Except.ok (("citations/" ++ stub ++ "_citation.html") :: paths)
        | Except.error e => Except.error e

/-- create_section_html_from_listchunk: resolve the file groups, then
render one artifact per group, returning the artifact paths in group
order. -/
def createSectionHtmlFromListchunk (index : List Chunk) (targetChunkIds : List String) : Except Unit (List String) :=
  sectionOutputs index (resolveFileIdsForChunks index targetChunkIds)

/-! ### helper/core.py : RagOrchestrator.process_query

The post-parse tail of process_query, a pure function of: the parsed LLM
response (always a dict, guaranteed by the parser), the retrieved chunk
count, the memory context string, and the citation resolver — the call to
create_section_html_from_listchunk, abstracted as a function returning
either the artifact paths or an exception. Steps 1–5 (memory fetch,
retrieval, prompt build, LLM call, parse) happen before this function;
any exception they raise fails the request, which the result type's error
case also covers here for the one in-scope raiser, len() on a
non-sized used_chunk_ids value. -/

/-- Python `x == "some string literal"` for a json.loads value. -/
def pyEqStr (j : Json) (s : String) : Bool :=
  match j with
  | Json.str t => t == s
  | _ => false

/-- Python len() on a json.loads value; none is a TypeError. -/
def pyLenOf : Json → Option Nat
  | Json.arr xs => some xs.length
  | Json.str s => some s.length
  | Json.obj kvs => some kvs.length
  | _ => none

/-- Python iteration order of a json.loads value: list elements, string
characters, dict keys; none is a TypeError. -/
def pyIterOf : Json → Option (List Json)
  | Json.arr xs => some xs
  | Json.str s => some (s.toList.map (fun c => Json.str (String.mk [c])))
  | Json.obj kvs => some (kvs.map (fun kv => Json.str kv.1))
  | _ => none

/-- One entry of the citations list: the dict
\x7b"chunk_id": cid, "citation_path": path\x7d. -/
structure Citation where
  chunk_id : Json
  citation_path : String

/-- The metadata dict stored with the memory entry in step 6. -/
def memoryMetadata (citationRequired : Bool) (citationsCount chunksRetrieved : Nat) : Json :=
  Json.obj [("citation_required", Json.bool citationRequired),
            ("citations_count", Json.num (toString citationsCount)),
            ("chunks_retrieved", Json.num (toString chunksRetrieved))]

/-- The result record of process_query, plus the metadata passed to
add_to_memory when a session id is present (none otherwise). -/
structure QueryResult where
  status : String
  query : String
  answer : Json
  citation_required : Bool
  citations : List Citation
  chunks_retrieved : Nat
  session_id : Option String
  memory_used : Bool
  memory_write : Option Json

/-- The citation gate as a predicate of the parsed response: the literal
"yes" and a positive length of used_chunk_ids. Only meaningful when len()
is defined; process_query errors otherwise. -/
def citationGate (kvs : List (String × Json)) : Bool :=
  pyEqStr (objGetD kvs "citation_required" Json.null) "yes" &&
    match pyLenOf (objGetD kvs "used_chunk_ids" (Json.arr [])) with
    | some n => decide (0 < n)
    | none => false

/-- The result record of process_query with the given gate value and
citations list. -/
def mkQueryResult (query : String) (sessionId : Option String) (memoryContext : String)
    (chunksRetrieved : Nat) (answer : Json) (gate : Bool) (citations : List Citation) :
    QueryResult :=
  { status := "success"
    query := query
    answer := answer
    citation_required := gate
    citations := citations
    chunks_retrieved := chunksRetrieved
    session_id := sessionId
    memory_used := memoryContext ≠ ""
    memory_write := sessionId.map
      (fun _ => memoryMetadata gate citations.length chunksRetrieved) }

/-- The citations built when the gate passed: zip the used ids with the
resolver's paths; a resolver exception is caught and leaves the list
empty. -/
def citationsOf (resolved : Except Unit (List String)) (iterated : Option (List Json)) :
    List Citation :=
  match resolved with
  | Except.ok paths =>
    match iterated with
    | some ids => (ids.zip paths).map (fun p => ⟨p.1, p.2⟩)
    | none => []
  | Except.error _ => []

/-- Steps 5b–7 and the result record of process_query. Short-circuit of
the Python `and`: len(used_chunk_ids) is only evaluated when
citation_required equals "yes". A resolver exception is caught and leaves
citations empty; a len() TypeError propagates as a request failure. -/
def processQueryAfterParse (query : String) (sessionId : Option String)
    (memoryContext : String) (chunksRetrieved : Nat)
    (resolver : Json → Except Unit (List String))
    (kvs : List (String × Json)) : Except Unit QueryResult :=
  let answer := objGetD kvs "answer" (Json.str "No answer generated")
  let used := objGetD kvs "used_chunk_ids" (Json.arr [])
  if pyEqStr (objGetD kvs "citation_required" Json.null) "yes" then
    match pyLenOf used with
    | none => Except.error ()
    | some n =>
      if 0 < n then
        Except.ok (mkQueryResult query sessionId memoryContext chunksRetrieved answer true
          (citationsOf (resolver used) (pyIterOf used)))
      else
        Except.ok (mkQueryResult query sessionId memoryContext chunksRetrieved answer false [])
  else Except.ok (mkQueryResult query sessionId memoryContext chunksRetrieved answer false [])

/-- Adapter instantiating the resolver with
create_section_html_from_listchunk over a given store, for the contract
shape of used_chunk_ids: a JSON list of chunk-id strings. -/
def jsonStrings? : List Json → Option (List String)
  | [] => some []
  | Json.str s :: rest => (jsonStrings? rest).map (fun l => s :: l)
  | _ => none

def resolverFromIndex (index : List Chunk) (used : Json) : Except Unit (List String) :=
  match used with
  | Json.arr xs =>
    match jsonStrings? xs with
    | some ids => createSectionHtmlFromListchunk index ids
    | none => Except.error ()
  | _ => Except.error ()

/-! ### Claim-level specification shapes -/

/-- Break flags as the rendering claim describes them, corrected for the
truthiness test: chunk i (counting from the second) is preceded by a page
break exactly when the previous chunk's page label is non-empty and
differs from its own. -/
def claimBreaks (l : List Chunk) : List Bool :=
  match l with
  | [] => []
  | _ :: _ => false :: (l.zip l.tail).map (fun p => p.1.page != "" && p.2.page != p.1.page)

/-- Emission of a chunk sequence given one break flag per chunk. -/
def blocksWithBreaks (tgt : List String) : List Chunk → List Bool → List String
  | [], _ => []
  | _ :: _, [] => []
  | c :: cs, b :: bs =>
    (if b then [pageBreakLine] else []) ++ chunkBody tgt c ++ blocksWithBreaks tgt cs bs

/-- Number of distinct files a list of chunk ids resolves to, over the
records the resolver query returns. -/
def distinctFileCount (index : List Chunk) (ids : List String) : Nat :=
  (((index.filter (fun r => ids.contains r.chunk_id)).take 1000).map
    (fun r => r.file_id)).toFinset.card

instance : IsTotal Chunk (fun a b => pyStrLe a.chunk_id b.chunk_id = true) :=
  ⟨fun a b => by
    unfold pyStrLe
    generalize a.chunk_id.toList = as
    generalize b.chunk_id.toList = bs
    induction as generalizing bs with
    | nil => left; rfl
    | cons a0 as ih =>
      cases bs with
      | nil => right; rfl
      | cons b0 bs =>
        rcases lt_trichotomy a0 b0 with h | h | h
        · left; simp [charListLe, h]
        · subst h
          rcases ih bs with h2 | h2
          · left; simpa [charListLe] using h2
          · right; simpa [charListLe] using h2
        · right; simp [charListLe, h]⟩

instance : IsTrans Chunk (fun a b => pyStrLe a.chunk_id b.chunk_id = true) := by
  constructor
  intro x y z
  show pyStrLe x.chunk_id y.chunk_id = true → pyStrLe y.chunk_id z.chunk_id = true →
    pyStrLe x.chunk_id z.chunk_id = true
  unfold pyStrLe
  generalize x.chunk_id.toList = as
  generalize y.chunk_id.toList = bs
  generalize z.chunk_id.toList = cs
  induction as generalizing bs cs with
  | nil => intro _ _; rfl
  | cons a as ih =>
    intro h1 h2
    cases bs with
    | nil => simp [charListLe] at h1
    | cons b bs =>
      cases cs with
      | nil => simp [charListLe] at h2
      | cons c cs =>
        by_cases hab : a < b
        · by_cases hbc : b < c
          · simp [charListLe, lt_trans hab hbc]
          · by_cases hcb : c < b
            · simp [charListLe, hbc, hcb] at h2
            · have hb : b = c := le_antisymm (not_lt.mp hcb) (not_lt.mp hbc)
              subst hb
              simp [charListLe, hab]
        · by_cases hba : b < a
          · simp [charListLe, hab, hba] at h1
          · have ha : a = b := le_antisymm (not_lt.mp hba) (not_lt.mp hab)
            subst ha
            by_cases hac : a < c
            · simp [charListLe, hac]
            · by_cases hca : c < a
              · simp [charListLe, hac, hca] at h2
              · have hc : a = c := le_antisymm (not_lt.mp hca) (not_lt.mp hac)
                subst hc
                simp only [charListLe, lt_irrefl, if_false] at h1 h2 ⊢
                exact ih bs cs h1 h2

/-! ## Claims -/

/-- C1: the claim says _parse_json_response locates the one well-formed
JSON object from the first opening brace by balanced-brace counting, at
any nesting depth. On a text whose single JSON object nests braces two
levels deep, the parse path — which uses the depth-limited regex, not the
brace-counting _extract_json_block present in the same class — extracts
an inner sub-object instead: the brace counter returns the full object
(and json.loads accepts it), while the regex search and hence the parser
return the nested fragment, whose keys lack the outer key. -/
theorem c1_regex_misses_nested_object :
    extractJsonBlock "Result: \x7b\"a\": \x7b\"b\": \x7b\"c\": 1\x7d\x7d\x7d Done"
      = some "\x7b\"a\": \x7b\"b\": \x7b\"c\": 1\x7d\x7d\x7d" ∧
    jsonLoads "\x7b\"a\": \x7b\"b\": \x7b\"c\": 1\x7d\x7d\x7d"
      = some (Json.obj [("a", Json.obj [("b", Json.obj [("c", Json.num "1")])])]) ∧
    reSearchJson (pyStrip "Result: \x7b\"a\": \x7b\"b\": \x7b\"c\": 1\x7d\x7d\x7d Done").toList
      = some ("\x7b\"b\": \x7b\"c\": 1\x7d\x7d").toList ∧
    parseJsonResponse "Result: \x7b\"a\": \x7b\"b\": \x7b\"c\": 1\x7d\x7d\x7d Done"
      = Json.obj [("b", Json.obj [("c", Json.num "1")]),
                  ("used_chunk_ids", Json.arr []),
                  ("chunk_reasoning", Json.obj []),
                  ("citation_required", Json.str "no"),
                  ("answer", Json.str "")] :=
  ⟨rfl, rfl, rfl, rfl⟩

/-- C2 counterexample: on unparseable input the parser does return its
fallback, but the fallback's answer field is "Error parsing response.",
not the empty string the claim states. -/
theorem c2_fallback_answer_not_empty :
    parseJsonResponse "The model failed." = fallbackResponse ∧
    fallbackResponse ≠ specSafeDefaultB := by
  refine ⟨rfl, ?_⟩
  intro h
  simp [fallbackResponse, specSafeDefaultB] at h

/-- C2 amended: the parser never raises — for every input it returns
either the code's fallback dict (answer "Error parsing response.",
citation_required "no", empty used_chunk_ids and chunk_reasoning), or the
validated parsed object with absent contract keys individually defaulted
in place. -/
theorem c2_parser_total_with_fallback (content : String) :
    parseJsonResponse content = fallbackResponse ∨
    ∃ m j, reSearchJson (pyStrip content).toList = some m ∧
      jsonLoads (String.mk m) = some j ∧
      postValidate j = some (parseJsonResponse content) := by
  rcases hm : reSearchJson (pyStrip content).toList with _ | m
  · left; simp only [parseJsonResponse, hm]
  · rcases hj : jsonLoads (String.mk m) with _ | j
    · left; simp only [parseJsonResponse, hm, hj]
    · rcases hp : postValidate j with _ | out
      · left; simp only [parseJsonResponse, hm, hj, hp]
      · right
        refine ⟨m, j, rfl, hj, ?_⟩
        simp only [parseJsonResponse, hm, hj, hp]

/-- C3: whenever the parsed response's set of used_chunk_ids differs from
the key set of chunk_reasoning (both computed after the setdefault
chain), the parser discards it and returns the fallback. -/
theorem c3_misaligned_reasoning_falls_back (content : String) (m : List Char)
    (j : Json) (su kr : List PyHashable)
    (hm : reSearchJson (pyStrip content).toList = some m)
    (hj : jsonLoads (String.mk m) = some j)
    (hu : usedChunkSet j = some su)
    (hk : reasoningKeySet j = some kr)
    (hne : pySetEq su kr = false) :
    parseJsonResponse content = fallbackResponse := by
  have hp : postValidate j = none := by
    cases j with
    | obj kvs =>
      simp only [usedChunkSet] at hu
      simp only [reasoningKeySet] at hk
      simp only [postValidate]
      rw [hu, hk]
      simp [hne]
    | null => simp [usedChunkSet] at hu
    | bool b => simp [usedChunkSet] at hu
    | num n => simp [usedChunkSet] at hu
    | str s => simp [usedChunkSet] at hu
    | arr xs => simp [usedChunkSet] at hu
  simp only [parseJsonResponse, hm, hj, hp]

/-- C3 witness: a concrete response citing chunk "a" with empty
chunk_reasoning is rejected in favour of the fallback. -/
theorem c3_witness :
    reSearchJson (pyStrip "\x7b\"used_chunk_ids\": [\"a\"], \"chunk_reasoning\": \x7b\x7d\x7d").toList
      = some ("\x7b\"used_chunk_ids\": [\"a\"], \"chunk_reasoning\": \x7b\x7d\x7d").toList ∧
    pySetEq [PyHashable.hstr "a"] [] = false ∧
    parseJsonResponse "\x7b\"used_chunk_ids\": [\"a\"], \"chunk_reasoning\": \x7b\x7d\x7d"
      = fallbackResponse :=
  ⟨rfl, rfl,
    c3_misaligned_reasoning_falls_back _ _
      (Json.obj [("used_chunk_ids", Json.arr [Json.str "a"]),
                 ("chunk_reasoning", Json.obj [])])
      [PyHashable.hstr "a"] [] rfl rfl rfl rfl rfl⟩

theorem pyTakeLast_length (n : Nat) (l : List α) :
    (pyTakeLast n l).length = if n = 0 then l.length else l.length - (l.length - n) := by
  unfold pyTakeLast
  split <;> simp [List.length_drop]

/-- Step form of the truncation invariant: one append from an
invariant-satisfying state keeps it. -/
theorem addToMemory_entries_drop (maxM : Nat) (hm : 0 < maxM) (es : List MemoryEntry)
    (st : SessionMemory) (he : st.entries = es.drop (es.length - maxM)) (e : MemoryEntry) :
    (addToMemory maxM st e).entries = (es ++ [e]).drop ((es ++ [e]).length - maxM) := by
  have hlen : st.entries.length = es.length - (es.length - maxM) := by
    rw [he, List.length_drop]
  unfold addToMemory
  by_cases h : maxM < es.length + 1
  · have h1 : maxM ≤ es.length := by omega
    have h2 : st.entries.length = maxM := by omega
    have hcond : maxM < (st.entries ++ [e]).length := by
      simp [List.length_append, h2]
    simp only [hcond, if_pos]
    unfold pyTakeLast
    have hnz : ¬ maxM = 0 := by omega
    simp only [hnz, if_false]
    have hlen2 : (st.entries ++ [e]).length - maxM = 1 := by
      simp [List.length_append, h2]
    rw [hlen2, he]
    have hd1 : (1 : Nat) ≤ (es.drop (es.length - maxM)).length := by
      rw [List.length_drop]; omega
    rw [List.drop_append_of_le_length hd1, List.drop_drop]
    have hd2 : (es ++ [e]).length - maxM = 1 + (es.length - maxM) := by
      simp [List.length_append]; omega
    have hd3 : 1 + (es.length - maxM) ≤ es.length := by omega
    rw [hd2, List.drop_append_of_le_length hd3]
    have hco : es.length - maxM + 1 = 1 + (es.length - maxM) := by omega
    rw [hco]
  · have h1 : es.length - maxM = 0 := by omega
    have hcond : ¬ maxM < (st.entries ++ [e]).length := by
      simp [List.length_append]; omega
    simp only [hcond, if_false]
    rw [he, h1]
    have h2 : (es ++ [e]).length - maxM = 0 := by
      simp [List.length_append]; omega
    rw [h2]
    simp

/-- C4: for a positive cap, after any sequence of appends the per-session
entry list is exactly the suffix of the appended entries of length at most
max_memories — at most max_memories entries, the most recently appended
ones, in original relative order, and exactly max_memories of them once
more than max_memories have been appended. -/
theorem c4_memory_truncation (maxM : Nat) (hm : 0 < maxM) (es : List MemoryEntry) :
    (es.foldl (addToMemory maxM) ⟨[], ""⟩).entries = es.drop (es.length - maxM) ∧
    (es.foldl (addToMemory maxM) ⟨[], ""⟩).entries.length ≤ maxM ∧
    (maxM < es.length → (es.foldl (addToMemory maxM) ⟨[], ""⟩).entries.length = maxM) := by
  have main : (es.foldl (addToMemory maxM) ⟨[], ""⟩).entries = es.drop (es.length - maxM) := by
    induction es using List.reverseRecOn with
    | nil => simp
    | append_singleton es e ih =>
      rw [List.foldl_append, List.foldl_cons, List.foldl_nil]
      exact addToMemory_entries_drop maxM hm es _ ih e
  refine ⟨main, ?_, ?_⟩
  · rw [main, List.length_drop]; omega
  · intro h; rw [main, List.length_drop]; omega

/-- C4 witness: with cap 2, three appends leave exactly the last two
entries in order. -/
theorem c4_witness :
    0 < 2 ∧
    (([⟨"1", "u1", "r1", "t1", Json.null⟩, ⟨"2", "u2", "r2", "t2", Json.null⟩,
       ⟨"3", "u3", "r3", "t3", Json.null⟩].foldl (addToMemory 2) ⟨[], ""⟩).entries
        = [⟨"1", "u1", "r1", "t1", Json.null⟩, ⟨"2", "u2", "r2", "t2", Json.null⟩,
           ⟨"3", "u3", "r3", "t3", Json.null⟩].drop (3 - 2) ∧
     ([⟨"1", "u1", "r1", "t1", Json.null⟩, ⟨"2", "u2", "r2", "t2", Json.null⟩,
       ⟨"3", "u3", "r3", "t3", Json.null⟩].foldl (addToMemory 2) ⟨[], ""⟩).entries.length ≤ 2 ∧
     (2 < 3 → ([⟨"1", "u1", "r1", "t1", Json.null⟩, ⟨"2", "u2", "r2", "t2", Json.null⟩,
       ⟨"3", "u3", "r3", "t3", Json.null⟩].foldl (addToMemory 2) ⟨[], ""⟩).entries.length = 2)) :=
  ⟨Nat.zero_lt_succ 1,
   c4_memory_truncation 2 (Nat.zero_lt_succ 1)
     [⟨"1", "u1", "r1", "t1", Json.null⟩, ⟨"2", "u2", "r2", "t2", Json.null⟩,
      ⟨"3", "u3", "r3", "t3", Json.null⟩]⟩

/-- C5: every append leaves a positive entry count, and the summary after
an append is the freshly recomputed summary of the new entry list exactly
when the post-append (post-truncation) count is a multiple of five —
which, the count being positive, is exactly the positive multiples of
five — and is otherwise the unchanged prior summary. -/
theorem c5_summary_every_five (maxM : Nat) (st : SessionMemory) (e : MemoryEntry) :
    0 < (addToMemory maxM st e).entries.length ∧
    (addToMemory maxM st e).summary =
      (if (addToMemory maxM st e).entries.length % 5 = 0
       then recomputedSummary (addToMemory maxM st e).entries
       else st.summary) := by
  have hpos : 0 < (addToMemory maxM st e).entries.length := by
    show 0 < (if maxM < (st.entries ++ [e]).length
              then pyTakeLast maxM (st.entries ++ [e])
              else st.entries ++ [e]).length
    split
    · rw [pyTakeLast_length]
      split <;> omega
    · simp [List.length_append]
  have hdef : (addToMemory maxM st e).summary =
      (if (addToMemory maxM st e).entries.length % 5 = 0
       then updateSummary (addToMemory maxM st e).entries st.summary
       else st.summary) := rfl
  refine ⟨hpos, ?_⟩
  rw [hdef]
  by_cases h5 : (addToMemory maxM st e).entries.length % 5 = 0
  · have hge : 5 ≤ (addToMemory maxM st e).entries.length := by omega
    have hup : updateSummary (addToMemory maxM st e).entries st.summary
        = recomputedSummary (addToMemory maxM st e).entries := by
      unfold updateSummary recomputedSummary
      have hlt : ¬ (addToMemory maxM st e).entries.length < 3 := by omega
      simp only [hlt, if_false]
      have hlen5 : 0 < (pyTakeLast 5 (addToMemory maxM st e).entries).length := by
        rw [pyTakeLast_length]
        split <;> omega
      rcases hl : pyTakeLast 5 (addToMemory maxM st e).entries with _ | ⟨x, xs⟩
      · rw [hl] at hlen5; simp at hlen5
      · simp
    rw [if_pos h5, if_pos h5, hup]
  · rw [if_neg h5, if_neg h5]

/-! Evaluation lemmas for the four control paths of
processQueryAfterParse. -/

theorem processQuery_not_yes (q : String) (sid : Option String) (mem : String)
    (nC : Nat) (res : Json → Except Unit (List String)) (kvs : List (String × Json))
    (h : ¬ pyEqStr (objGetD kvs "citation_required" Json.null) "yes" = true) :
    processQueryAfterParse q sid mem nC res kvs =
      Except.ok (mkQueryResult q sid mem nC
        (objGetD kvs "answer" (Json.str "No answer generated")) false []) := by
  simp only [processQueryAfterParse]
  rw [if_neg h]

theorem processQuery_len_none (q : String) (sid : Option String) (mem : String)
    (nC : Nat) (res : Json → Except Unit (List String)) (kvs : List (String × Json))
    (hyes : pyEqStr (objGetD kvs "citation_required" Json.null) "yes" = true)
    (hl : pyLenOf (objGetD kvs "used_chunk_ids" (Json.arr [])) = none) :
    processQueryAfterParse q sid mem nC res kvs = Except.error () := by
  simp only [processQueryAfterParse]
  rw [if_pos hyes, hl]

theorem processQuery_len_zero (q : String) (sid : Option String) (mem : String)
    (nC : Nat) (res : Json → Except Unit (List String)) (kvs : List (String × Json)) (n : Nat)
    (hyes : pyEqStr (objGetD kvs "citation_required" Json.null) "yes" = true)
    (hl : pyLenOf (objGetD kvs "used_chunk_ids" (Json.arr [])) = some n)
    (hn : ¬ 0 < n) :
    processQueryAfterParse q sid mem nC res kvs =
      Except.ok (mkQueryResult q sid mem nC
        (objGetD kvs "answer" (Json.str "No answer generated")) false []) := by
  simp only [processQueryAfterParse]
  rw [if_pos hyes, hl]
  simp [hn]

theorem processQuery_gate_pass (q : String) (sid : Option String) (mem : String)
    (nC : Nat) (res : Json → Except Unit (List String)) (kvs : List (String × Json)) (n : Nat)
    (hyes : pyEqStr (objGetD kvs "citation_required" Json.null) "yes" = true)
    (hl : pyLenOf (objGetD kvs "used_chunk_ids" (Json.arr [])) = some n)
    (hn : 0 < n) :
    processQueryAfterParse q sid mem nC res kvs =
      Except.ok (mkQueryResult q sid mem nC
        (objGetD kvs "answer" (Json.str "No answer generated")) true
        (citationsOf (res (objGetD kvs "used_chunk_ids" (Json.arr [])))
          (pyIterOf (objGetD kvs "used_chunk_ids" (Json.arr []))))) := by
  simp only [processQueryAfterParse]
  rw [if_pos hyes, hl]
  simp [hn]

/-- C6: the orchestrator produces a non-empty citations list only when the
citation gate holds (citation_required "yes" and a positive used-id
count); and whenever the parsed response says "no" or names no used
chunk ids, the query succeeds with an empty citations list, whatever the
retrieved chunk count. -/
theorem c6_citation_gate (query : String) (sid : Option String) (mem : String)
    (nChunks : Nat) (resolver : Json → Except Unit (List String))
    (kvs : List (String × Json)) :
    (∀ r, processQueryAfterParse query sid mem nChunks resolver kvs = Except.ok r →
       r.citations ≠ [] → citationGate kvs = true) ∧
    ((objGet? kvs "citation_required" = some (Json.str "no") ∨
      objGetD kvs "used_chunk_ids" (Json.arr []) = Json.arr []) →
      ∃ r, processQueryAfterParse query sid mem nChunks resolver kvs = Except.ok r ∧
        r.citations = [] ∧ r.status = "success") := by
  constructor
  · intro r hok hne
    by_cases hyes : pyEqStr (objGetD kvs "citation_required" Json.null) "yes" = true
    · rcases hl : pyLenOf (objGetD kvs "used_chunk_ids" (Json.arr [])) with _ | n
      · rw [processQuery_len_none query sid mem nChunks resolver kvs hyes hl] at hok
        cases hok
      · by_cases hn : 0 < n
        · unfold citationGate
          rw [hyes, hl]
          simp [hn]
        · rw [processQuery_len_zero query sid mem nChunks resolver kvs n hyes hl hn] at hok
          cases hok
          exact absurd rfl hne
    · rw [processQuery_not_yes query sid mem nChunks resolver kvs hyes] at hok
      cases hok
      exact absurd rfl hne
  · intro hcase
    by_cases hyes : pyEqStr (objGetD kvs "citation_required" Json.null) "yes" = true
    · have hused : objGetD kvs "used_chunk_ids" (Json.arr []) = Json.arr [] := by
        rcases hcase with hno | hused
        · exfalso
          unfold pyEqStr at hyes
          rw [objGetD, hno] at hyes
          simp at hyes
        · exact hused
      have hl : pyLenOf (objGetD kvs "used_chunk_ids" (Json.arr [])) = some 0 := by
        rw [hused]; rfl
      refine ⟨_, processQuery_len_zero query sid mem nChunks resolver kvs 0 hyes hl (by omega),
        rfl, rfl⟩
    · exact ⟨_, processQuery_not_yes query sid mem nChunks resolver kvs hyes, rfl, rfl⟩

/-- C6 witness: a "no" response with two retrieved chunks succeeds with no
citations. -/
theorem c6_witness :
    ∃ r, processQueryAfterParse "q" none "" 2 (fun _ => Except.error ())
        [("citation_required", Json.str "no"), ("answer", Json.str "x")] = Except.ok r ∧
      r.citations = [] ∧ r.status = "success" :=
  (c6_citation_gate "q" none "" 2 (fun _ => Except.error ())
    [("citation_required", Json.str "no"), ("answer", Json.str "x")]).2 (Or.inl rfl)

/-- C7: when the gate passes and the citation resolver raises, the
exception is swallowed: the query still returns a success record carrying
the answer, with an empty citations list. -/
theorem c7_resolver_failure_isolated (query : String) (sid : Option String) (mem : String)
    (nChunks : Nat) (resolver : Json → Except Unit (List String))
    (kvs : List (String × Json)) (n : Nat)
    (hyes : pyEqStr (objGetD kvs "citation_required" Json.null) "yes" = true)
    (hl : pyLenOf (objGetD kvs "used_chunk_ids" (Json.arr [])) = some n)
    (hn : 0 < n)
    (hres : resolver (objGetD kvs "used_chunk_ids" (Json.arr [])) = Except.error ()) :
    processQueryAfterParse query sid mem nChunks resolver kvs =
      Except.ok (mkQueryResult query sid mem nChunks
        (objGetD kvs "answer" (Json.str "No answer generated")) true []) ∧
    (mkQueryResult query sid mem nChunks
        (objGetD kvs "answer" (Json.str "No answer generated")) true [] : QueryResult).status
      = "success" ∧
    (mkQueryResult query sid mem nChunks
        (objGetD kvs "answer" (Json.str "No answer generated")) true [] : QueryResult).answer
      = objGetD kvs "answer" (Json.str "No answer generated") := by
  refine ⟨?_, rfl, rfl⟩
  rw [processQuery_gate_pass query sid mem nChunks resolver kvs n hyes hl hn, hres]
  rfl

/-- C7 witness: a concrete "yes" response whose resolver raises still
succeeds with the answer and empty citations. -/
theorem c7_witness :
    processQueryAfterParse "q" (some "s") "" 2 (fun _ => Except.error ())
        [("citation_required", Json.str "yes"), ("used_chunk_ids", Json.arr [Json.str "a"]),
         ("answer", Json.str "A")] =
      Except.ok (mkQueryResult "q" (some "s") "" 2 (Json.str "A") true []) ∧
    (mkQueryResult "q" (some "s") "" 2 (Json.str "A") true [] : QueryResult).status = "success" ∧
    (mkQueryResult "q" (some "s") "" 2 (Json.str "A") true [] : QueryResult).answer
      = Json.str "A" :=
  c7_resolver_failure_isolated "q" (some "s") "" 2 (fun _ => Except.error ())
    [("citation_required", Json.str "yes"), ("used_chunk_ids", Json.arr [Json.str "a"]),
     ("answer", Json.str "A")] 1 rfl rfl (Nat.zero_lt_succ 0) rfl

/-- C10: in every successful result the citation_required field — in the
record and in the metadata written to memory — is the boolean gate value,
not the LLM's raw string; in particular it is false whenever
used_chunk_ids is empty, even when the response said "yes". -/
theorem c10_boolean_gate_in_result (query : String) (sid : Option String) (mem : String)
    (nChunks : Nat) (resolver : Json → Except Unit (List String))
    (kvs : List (String × Json)) (r : QueryResult)
    (hok : processQueryAfterParse query sid mem nChunks resolver kvs = Except.ok r) :
    r.citation_required = citationGate kvs ∧
    r.memory_write = sid.map
      (fun _ => memoryMetadata (citationGate kvs) r.citations.length nChunks) ∧
    (objGetD kvs "used_chunk_ids" (Json.arr []) = Json.arr [] →
      r.citation_required = false) := by
  have hgate : r.citation_required = citationGate kvs ∧
      r.memory_write = sid.map
        (fun _ => memoryMetadata (citationGate kvs) r.citations.length nChunks) := by
    by_cases hyes : pyEqStr (objGetD kvs "citation_required" Json.null) "yes" = true
    · rcases hl : pyLenOf (objGetD kvs "used_chunk_ids" (Json.arr [])) with _ | n
      · rw [processQuery_len_none query sid mem nChunks resolver kvs hyes hl] at hok
        cases hok
      · have hg : citationGate kvs = decide (0 < n) := by
          unfold citationGate
          rw [hyes, hl]
          simp
        by_cases hn : 0 < n
        · rw [processQuery_gate_pass query sid mem nChunks resolver kvs n hyes hl hn] at hok
          cases hok
          rw [hg]
          simp [hn, mkQueryResult]
        · rw [processQuery_len_zero query sid mem nChunks resolver kvs n hyes hl hn] at hok
          cases hok
          rw [hg]
          simp [hn, mkQueryResult]
    · have hg : citationGate kvs = false := by
        unfold citationGate
        rw [Bool.eq_false_iff]
        intro hand
        exact hyes (Bool.and_elim_left hand)
      rw [processQuery_not_yes query sid mem nChunks resolver kvs hyes] at hok
      cases hok
      rw [hg]
      simp [mkQueryResult]
  refine ⟨hgate.1, hgate.2, ?_⟩
  intro hempty
  rw [hgate.1]
  unfold citationGate
  rw [hempty]
  simp [pyLenOf]

/-- C10 witness: the response says "yes" but names no chunks; the stored
and returned citation_required is false. -/
theorem c10_witness :
    (mkQueryResult "q" (some "s") "" 2 (Json.str "A") false [] : QueryResult).citation_required
        = citationGate [("citation_required", Json.str "yes"), ("used_chunk_ids", Json.arr []),
                        ("answer", Json.str "A")] ∧
    (mkQueryResult "q" (some "s") "" 2 (Json.str "A") false [] : QueryResult).memory_write
        = (some "s").map (fun _ => memoryMetadata
            (citationGate [("citation_required", Json.str "yes"), ("used_chunk_ids", Json.arr []),
                           ("answer", Json.str "A")])
            (mkQueryResult "q" (some "s") "" 2 (Json.str "A") false []
              : QueryResult).citations.length 2) ∧
    (objGetD [("citation_required", Json.str "yes"), ("used_chunk_ids", Json.arr []),
              ("answer", Json.str "A")] "used_chunk_ids" (Json.arr []) = Json.arr [] →
      (mkQueryResult "q" (some "s") "" 2 (Json.str "A") false [] : QueryResult).citation_required
        = false) :=
  c10_boolean_gate_in_result "q" (some "s") "" 2 (fun _ => Except.error ())
    [("citation_required", Json.str "yes"), ("used_chunk_ids", Json.arr []),
     ("answer", Json.str "A")]
    (mkQueryResult "q" (some "s") "" 2 (Json.str "A") false []) rfl

/-- The chunk loop with a previous chunk in scope emits exactly the
blocks with one break flag per adjacent pair. -/
theorem emitChunks_cons_breaks (tgt : List String) :
    ∀ (l : List Chunk) (p : Chunk),
      emitChunks tgt (some p.page) l =
        blocksWithBreaks tgt l (((p :: l).zip l).map
          (fun q => q.1.page != "" && q.2.page != q.1.page)) := by
  intro l
  induction l with
  | nil => intro p; rfl
  | cons c rest ih =>
    intro p
    simp only [emitChunks, blocksWithBreaks, List.zip_cons_cons, List.map_cons]
    rw [ih c]
    rfl

/-- C8 corrected: the rendered markdown is the heading line followed by
the chunks in ascending chunk_id order (a stable sort permuting the
input), and a page-break marker precedes a chunk exactly when the
previously emitted chunk's page label is non-empty and differs from its
own. (The original claim — a break exactly when the labels differ — fails
when the earlier label is empty, the falsy case of the Python test.) -/
theorem c8_rendering_order_and_breaks (chunks : List Chunk) (tgt : List String)
    (heading : String) (_hne : chunks ≠ []) :
    List.Perm (sortChunks chunks) chunks ∧
    List.Sorted (fun a b => pyStrLe a.chunk_id b.chunk_id = true) (sortChunks chunks) ∧
    buildSectionMarkdownLines chunks tgt heading =
      ("# " ++ heading ++ "\n") ::
        blocksWithBreaks tgt (sortChunks chunks) (claimBreaks (sortChunks chunks)) := by
  refine ⟨List.perm_insertionSort _ _, List.sorted_insertionSort _ _, ?_⟩
  unfold buildSectionMarkdownLines
  congr 1
  rcases sortChunks chunks with _ | ⟨c, rest⟩
  · rfl
  · simp only [emitChunks, claimBreaks, blocksWithBreaks]
    rw [emitChunks_cons_breaks tgt rest c]
    rfl

/-- C8 witness: two chunks with non-empty, differing page labels, fed in
descending id order: the output is sorted ascending and carries one
page-break marker between the two. -/
theorem c8_witness :
    ([⟨"b", "f", "T2", "5", "", ""⟩, ⟨"a", "f", "T1", "1", "", ""⟩] : List Chunk) ≠ [] ∧
    (List.Perm (sortChunks [⟨"b", "f", "T2", "5", "", ""⟩, ⟨"a", "f", "T1", "1", "", ""⟩])
       [⟨"b", "f", "T2", "5", "", ""⟩, ⟨"a", "f", "T1", "1", "", ""⟩] ∧
     List.Sorted (fun a b => pyStrLe a.chunk_id b.chunk_id = true)
       (sortChunks [⟨"b", "f", "T2", "5", "", ""⟩, ⟨"a", "f", "T1", "1", "", ""⟩]) ∧
     buildSectionMarkdownLines [⟨"b", "f", "T2", "5", "", ""⟩, ⟨"a", "f", "T1", "1", "", ""⟩] [] "H" =
       ("# " ++ "H" ++ "\n") ::
         blocksWithBreaks []
           (sortChunks [⟨"b", "f", "T2", "5", "", ""⟩, ⟨"a", "f", "T1", "1", "", ""⟩])
           (claimBreaks (sortChunks [⟨"b", "f", "T2", "5", "", ""⟩, ⟨"a", "f", "T1", "1", "", ""⟩]))) :=
  ⟨by decide,
   c8_rendering_order_and_breaks
     [⟨"b", "f", "T2", "5", "", ""⟩, ⟨"a", "f", "T1", "1", "", ""⟩] [] "H" (by decide)⟩

/-- C8 counterexample: the claim as stated — a page-break marker between
consecutive chunks exactly when their page labels differ — fails when the
earlier chunk's label is the empty string: the labels differ yet no
marker is emitted anywhere in the document. -/
theorem c8_counterexample_empty_page_label :
    (⟨"a", "f", "T1", "", "", ""⟩ : Chunk).page ≠ (⟨"b", "f", "T2", "5", "", ""⟩ : Chunk).page ∧
    pageBreakLine ∉ buildSectionMarkdownLines
      [(⟨"a", "f", "T1", "", "", ""⟩ : Chunk), ⟨"b", "f", "T2", "5", "", ""⟩] [] "H" := by
  exact ⟨by decide, by decide⟩

/-! Lemmas for the citation pairing claim. -/

theorem sectionOutputs_length (index : List Chunk) :
    ∀ (gs : List (String × List String)) (paths : List String),
      sectionOutputs index gs = Except.ok paths → paths.length = gs.length := by
  intro gs
  induction gs with
  | nil =>
    intro paths h
    cases h
    rfl
  | cons g rest ih =>
    intro paths h
    rcases g with ⟨fileId, chunkIds⟩
    simp only [sectionOutputs] at h
    rcases hh : chunkIds.head? with _ | c0
    · simp only [hh] at h
      cases h
    · simp only [hh] at h
      rcases hf : (fetchAllChunks index fileId).find? (fun c => c.chunk_id == c0) with _ | target
      · simp only [hf] at h
        cases h
      · simp only [hf] at h
        rcases hrec : sectionOutputs index rest with e | ps
        · simp only [hrec] at h
          cases h
        · simp only [hrec] at h
          cases h
          simp [ih ps hrec]

theorem keys_insertGrouped (g : List (String × List String)) (f c : String) :
    (insertGrouped g f c).map Prod.fst =
      if f ∈ g.map Prod.fst then g.map Prod.fst else g.map Prod.fst ++ [f] := by
  induction g with
  | nil => simp [insertGrouped]
  | cons kv rest ih =>
    rcases kv with ⟨k, cs⟩
    by_cases hk : (k == f) = true
    · have hkf : k = f := by simpa using hk
      subst hkf
      simp [insertGrouped, hk]
    · have hkf : ¬ f = k := by
        intro h
        subst h
        simp at hk
      simp only [insertGrouped, hk, if_false, Bool.false_eq_true, List.map_cons, ih]
      by_cases hm : f ∈ rest.map Prod.fst
      · simp [hm, hkf]
      · simp [hm, hkf]

theorem groupRecords_keys (rs : List Chunk) :
    ∀ g : List (String × List String),
      (g.map Prod.fst).Nodup →
      ((rs.foldl (fun g2 r => insertGrouped g2 r.file_id r.chunk_id) g).map Prod.fst).Nodup ∧
      ((rs.foldl (fun g2 r => insertGrouped g2 r.file_id r.chunk_id) g).map Prod.fst).toFinset
        = (g.map Prod.fst).toFinset ∪ (rs.map (fun r => r.file_id)).toFinset := by
  induction rs with
  | nil =>
    intro g hg
    simp [hg]
  | cons r rest ih =>
    intro g hg
    simp only [List.foldl_cons, List.map_cons]
    have hstep := keys_insertGrouped g r.file_id r.chunk_id
    have hnd : ((insertGrouped g r.file_id r.chunk_id).map Prod.fst).Nodup := by
      rw [hstep]
      split
      · exact hg
      · rw [List.nodup_append]
        refine ⟨hg, List.nodup_singleton _, ?_⟩
        intro a ha hb
        simp at hb
        subst hb
        exact ‹¬ r.file_id ∈ g.map Prod.fst› ha
    have hfin : ((insertGrouped g r.file_id r.chunk_id).map Prod.fst).toFinset
        = insert r.file_id (g.map Prod.fst).toFinset := by
      rw [hstep]
      split
      · rw [Finset.insert_eq_self.mpr (List.mem_toFinset.mpr ‹_›)]
      · rw [List.toFinset_append, Finset.union_comm, Finset.insert_eq]
        simp
    rcases ih (insertGrouped g r.file_id r.chunk_id) hnd with ⟨h1, h2⟩
    refine ⟨h1, ?_⟩
    rw [h2, hfin, List.toFinset_cons, Finset.insert_union, Finset.union_insert]

theorem resolveGroups_length (index : List Chunk) (ids : List String) :
    (resolveFileIdsForChunks index ids).length = distinctFileCount index ids := by
  unfold resolveFileIdsForChunks distinctFileCount
  rcases groupRecords_keys ((index.filter (fun r => ids.contains r.chunk_id)).take 1000) []
    (by simp) with ⟨h1, h2⟩
  have hlen : (((index.filter (fun r => ids.contains r.chunk_id)).take 1000).foldl
      (fun g2 r => insertGrouped g2 r.file_id r.chunk_id) []).length
      = ((((index.filter (fun r => ids.contains r.chunk_id)).take 1000).foldl
      (fun g2 r => insertGrouped g2 r.file_id r.chunk_id) []).map Prod.fst).length := by
    simp
  rw [hlen, ← List.toFinset_card_of_nodup h1, h2]
  simp

theorem jsonStrings_map (ids : List String) :
    jsonStrings? (ids.map Json.str) = some ids := by
  induction ids with
  | nil => rfl
  | cons a rest ih => simp [jsonStrings?, ih]

/-- C9: when the gate passes and the resolver succeeds, the citations
list pairs the used chunk ids positionally with the per-file artifact
paths: its length is the minimum of the used-id count and the number of
distinct files those ids resolve to, and the i-th id is attached to the
i-th file's path regardless of which file that id belongs to. -/
theorem c9_citation_pairing (query : String) (sid : Option String) (mem : String)
    (nChunks : Nat) (index : List Chunk) (kvs : List (String × Json))
    (ids : List String) (paths : List String)
    (hused : objGetD kvs "used_chunk_ids" (Json.arr []) = Json.arr (ids.map Json.str))
    (hyes : pyEqStr (objGetD kvs "citation_required" Json.null) "yes" = true)
    (hne : ids ≠ [])
    (hres : createSectionHtmlFromListchunk index ids = Except.ok paths) :
    ∃ r, processQueryAfterParse query sid mem nChunks (resolverFromIndex index) kvs
        = Except.ok r ∧
      r.citations = ((ids.map Json.str).zip paths).map (fun p => Citation.mk p.1 p.2) ∧
      r.citations.length = min ids.length (distinctFileCount index ids) := by
  have hlen : pyLenOf (objGetD kvs "used_chunk_ids" (Json.arr [])) = some ids.length := by
    rw [hused]
    simp [pyLenOf]
  have hn : 0 < ids.length := List.length_pos.mpr hne
  have hresolve : resolverFromIndex index (objGetD kvs "used_chunk_ids" (Json.arr []))
      = Except.ok paths := by
    rw [hused]
    simp only [resolverFromIndex, jsonStrings_map ids]
    exact hres
  have hiter : pyIterOf (objGetD kvs "used_chunk_ids" (Json.arr []))
      = some (ids.map Json.str) := by
    rw [hused]
    rfl
  refine ⟨_, processQuery_gate_pass query sid mem nChunks (resolverFromIndex index) kvs
    ids.length hyes hlen hn, ?_, ?_⟩
  · show citationsOf _ _ = _
    rw [hresolve, hiter]
    rfl
  · show (citationsOf _ _).length = _
    rw [hresolve, hiter]
    have hpl : paths.length = distinctFileCount index ids := by
      unfold createSectionHtmlFromListchunk at hres
      rw [sectionOutputs_length index (resolveFileIdsForChunks index ids) paths hres,
        resolveGroups_length]
    simp [citationsOf, hpl]

/-- C9 witness: three cited ids over two files; the second file-A chunk id
"a2" is paired with file B's artifact path, and the citation count is
min 3 2 = 2. -/
theorem c9_witness :
    ∃ r, processQueryAfterParse "q" none "" 3
        (resolverFromIndex [⟨"a1", "fileA", "tA", "1", "hA", ""⟩,
                            ⟨"a2", "fileA", "tA2", "1", "hA", ""⟩,
                            ⟨"b1", "fileB", "tB", "2", "hB", ""⟩])
        [("citation_required", Json.str "yes"),
         ("used_chunk_ids", Json.arr [Json.str "a1", Json.str "a2", Json.str "b1"]),
         ("answer", Json.str "A")]
        = Except.ok r ∧
      r.citations = ((["a1", "a2", "b1"].map Json.str).zip
          ["citations/fileA_2chunks_citation.html",
           "citations/fileB_1chunks_citation.html"]).map (fun p => Citation.mk p.1 p.2) ∧
      r.citations.length = min (["a1", "a2", "b1"].length)
        (distinctFileCount [⟨"a1", "fileA", "tA", "1", "hA", ""⟩,
                            ⟨"a2", "fileA", "tA2", "1", "hA", ""⟩,
                            ⟨"b1", "fileB", "tB", "2", "hB", ""⟩] ["a1", "a2", "b1"]) :=
  c9_citation_pairing "q" none "" 3
    [⟨"a1", "fileA", "tA", "1", "hA", ""⟩,
     ⟨"a2", "fileA", "tA2", "1", "hA", ""⟩,
     ⟨"b1", "fileB", "tB", "2", "hB", ""⟩]
    [("citation_required", Json.str "yes"),
     ("used_chunk_ids", Json.arr [Json.str "a1", Json.str "a2", Json.str "b1"]),
     ("answer", Json.str "A")]
    ["a1", "a2", "b1"]
    ["citations/fileA_2chunks_citation.html", "citations/fileB_1chunks_citation.html"]
    rfl rfl (by decide) rfl

end Rag
